import Mathlib

/-!
Verification of the RoboCup player gateway
(projects/samples/contests/robocup/controllers/player/player.cpp).

The development shallowly embeds the protocol/session layer of the player
controller: the framed transport (receiveMessages / receiveData), the
command dispatcher's sensor-subscription handling (processBuffer,
sensor_time_steps loop), the pending-to-active promotion (updateDevices),
the measurement aggregator guard (prepareSensorMessage), the bandwidth
quota tracker (bandwidth_usage / sendSensorMessage) and the blocking send
loop (send_all).  Machine integers are modelled as Nat; bytes are Nat
values below 256; fallible network reads are driven by explicit
per-step byte availability or by explicit network event scripts.
-/

namespace Player

/-! ### Framed transport, byte-stream model (receiveMessages / receiveData)

Per simulation step the network makes a finite list of bytes available on
the non-blocking socket.  Within one `receiveData` call the code keeps
calling `recv` until the requested count is reached or the data runs out
(`EAGAIN`), so a single receiveData over availability `avail` returns
`avail.take length` and leaves `avail.drop length`.  This model has no
read errors; those are treated in the event model further below. -/

/-- The result of `ntohl` on the 4-byte length header buffer after `k`
bytes of it have been overwritten by `receiveData` (the remaining bytes
keep their previous value 0, because the header is only read while
`content_size == 0`): big-endian value of the list padded with zeros. -/
def beVal4 (bs : List Nat) : Nat :=
  bs.getD 0 0 * 2 ^ 24 + bs.getD 1 0 * 2 ^ 16 + bs.getD 2 0 * 2 ^ 8 + bs.getD 3 0

/-- Big-endian 4-byte encoding of a length, as produced by `htonl` on the
sender side of the wire format. -/
def toBE4 (n : Nat) : List Nat :=
  [n / 2 ^ 24 % 256, n / 2 ^ 16 % 256, n / 2 ^ 8 % 256, n % 256]

/-- The in-flight inbound message state of `PlayerServer`:
fields `content_size`, `recv_index` and the written prefix of
`recv_buffer` (the C buffer is allocated with capacity `content_size`;
only the first `recv_index` bytes have been filled). -/
structure RecvState where
  content_size : Nat
  recv_index : Nat
  recv_buffer : List Nat
deriving DecidableEq, Repr

/-- One step's `receiveMessages` drain loop (player.cpp lines 274-294),
with `receiveData` inlined as take/drop on the step's available bytes.
`fuel` bounds the loop; every continuing iteration consumes at least one
available byte, so `avail.length + 1` units of fuel reproduce the
unbounded C loop.  Returns the final state and the list of complete
payloads handed to `processBuffer`, in order. -/
def receiveMessagesAux : Nat → RecvState → List Nat → RecvState × List (List Nat)
  | 0, st, _ => (st, [])
  | fuel + 1, st, avail =>
    if st.content_size = 0 then
      -- header read: receiveData((char *)&content_size, 4), then ntohl,
      -- then recv_buffer = new char[content_size]
      if (avail.take 4).length = 0 then
        (⟨beVal4 (avail.take 4), st.recv_index, []⟩, [])
      else
        receiveMessagesAux fuel ⟨beVal4 (avail.take 4), st.recv_index, []⟩ (avail.drop 4)
    else
      -- content read: receiveData(recv_buffer + recv_index, content_size - recv_index)
      if st.recv_index + (avail.take (st.content_size - st.recv_index)).length
          = st.content_size then
        -- recv_index == content_size: processBuffer() consumes the message
        if (avail.take (st.content_size - st.recv_index)).length = 0 then
          (⟨0, 0, []⟩, [st.recv_buffer ++ avail.take (st.content_size - st.recv_index)])
        else
          ((receiveMessagesAux fuel ⟨0, 0, []⟩
              (avail.drop (st.content_size - st.recv_index))).1,
            (st.recv_buffer ++ avail.take (st.content_size - st.recv_index)) ::
              (receiveMessagesAux fuel ⟨0, 0, []⟩
                (avail.drop (st.content_size - st.recv_index))).2)
      else
        if (avail.take (st.content_size - st.recv_index)).length = 0 then
          (st, [])
        else
          receiveMessagesAux fuel
            ⟨st.content_size,
              st.recv_index + (avail.take (st.content_size - st.recv_index)).length,
              st.recv_buffer ++ avail.take (st.content_size - st.recv_index)⟩
            (avail.drop (st.content_size - st.recv_index))

/-- One step's `receiveMessages` poll over the step's available bytes. -/
def receiveMessages (st : RecvState) (avail : List Nat) : RecvState × List (List Nat) :=
  receiveMessagesAux (avail.length + 1) st avail

/-- Run the per-step receive poll over a sequence of steps; `chunks`
holds the bytes that become available at each successive step.  Returns
the final in-flight state and the concatenated sequence of payloads
dispatched to `processBuffer`. -/
def runSteps (st : RecvState) : List (List Nat) → RecvState × List (List Nat)
  | [] => (st, [])
  | c :: cs =>
    ((runSteps (receiveMessages st c).1 cs).1,
      (receiveMessages st c).2 ++ (runSteps (receiveMessages st c).1 cs).2)

/-- The wire encoding of one message: 4-byte big-endian length then the
payload. -/
def encodeMsg (p : List Nat) : List Nat := toBE4 p.length ++ p

/-- The wire encoding of a sequence of messages. -/
def encodeStream (msgs : List (List Nat)) : List Nat := (msgs.map encodeMsg).flatten

/-- Header start offsets of each message within `encodeStream msgs`. -/
def headerStarts : List (List Nat) → List Nat
  | [] => []
  | p :: ps => 0 :: (headerStarts ps).map (fun s => s + (4 + p.length))

/-- Cumulative chunk-boundary positions of a chunking given by the chunk
lengths: the running partial sums. -/
def cumSums : List Nat → List Nat
  | [] => []
  | k :: ks => k :: (cumSums ks).map (fun q => q + k)

/-- Parsing configuration used to relate a `RecvState` to the wire
stream: `none` means the transport expects a fresh header, and
`some (g, m)` means it is mid-payload with `g` the bytes already
received and `m` the nonempty missing rest of the payload. -/
def stateOf : Option (List Nat × List Nat) → RecvState
  | none => ⟨0, 0, []⟩
  | some (g, m) => ⟨g.length + m.length, g.length, g⟩

/-- Bytes of the current partial message still owed by the network. -/
def pendingBytes : Option (List Nat × List Nat) → List Nat
  | none => []
  | some (_, m) => m

/-- The payloads the transport will still emit for the current in-flight
message (its full payload, once the missing bytes arrive). -/
def pendingOut : Option (List Nat × List Nat) → List (List Nat)
  | none => []
  | some (g, m) => [g ++ m]

/-- The whole byte stream still owed by the network for configuration
`c` followed by the not-yet-started messages `rem`. -/
def streamOf (c : Option (List Nat × List Nat)) (rem : List (List Nat)) : List Nat :=
  pendingBytes c ++ encodeStream rem

/-- All payloads the transport will still emit (zero-length messages are
never handed to `processBuffer`: a header of value 0 just puts the loop
back into header mode). -/
def outOf (c : Option (List Nat × List Nat)) (rem : List (List Nat)) : List (List Nat) :=
  pendingOut c ++ rem.filter (fun p => !p.isEmpty)

/-- Header start offsets, relative to the current read position of
configuration `c` followed by messages `rem`. -/
def startsOf (c : Option (List Nat × List Nat)) (rem : List (List Nat)) : List Nat :=
  match c with
  | none => headerStarts rem
  | some (_, m) => (headerStarts rem).map (fun s => s + m.length)

/-- Well-formedness of a configuration: mid-payload means at least one
byte is still missing. -/
def ConfigWF : Option (List Nat × List Nat) → Prop
  | none => True
  | some (_, m) => m ≠ []

/-! ### Sensor subscription machine and measurement aggregator

Devices are identified with their registry names, modelled as `Nat`.
The webots host is a capability provider: it resolves names, reports a
device's node type, and stores the sampling period written by
`enable(p)` and read back by `getSamplingPeriod()` (`enable(0)` disables
the device, i.e. stores period 0). -/

/-- The webots node types relevant to the dispatcher's switch
(player.cpp lines 409-438); `motor` and `other` fall into the
`default:` branch. -/
inductive NodeType where
  | accelerometer | camera | gyro | positionSensor | touchSensor | motor | other
deriving DecidableEq, Repr

/-- Host capabilities consumed by the dispatcher: `robot->getDevice`
(None when the name resolves to no device) and `getNodeType`. -/
structure Registry where
  deviceExists : Nat → Bool
  nodeType : Nat → NodeType

/-- Pointwise function update for the sampling-period store. -/
def setP (f : Nat → Nat) (x v : Nat) : Nat → Nat :=
  fun y => if y = x then v else f y

/-- The subscription state of the gateway: the `sensors` set (active,
reporting), the `new_sensors` set (staged this step, reporting starts
next step) and the per-device sampling period held by the webots host
(0 when the device has never been enabled or has been disabled). -/
structure DevState where
  sensors : Finset Nat
  new_sensors : Finset Nat
  sampling : Nat → Nat

/-- One `SensorTimeStep` command of an `ActuatorRequests` batch. -/
structure SensorTimeStep where
  name : Nat
  timestep : Nat
deriving DecidableEq, Repr

/-- The warnings `warn(...)` can add while handling one sensor_time_steps
command. -/
inductive WarnKind where
  | deviceNotFound (name : Nat)
  | periodTooSmall (name timestep : Nat)
  | periodNotMultiple (name timestep : Nat)
  | unsupportedDevice (name : Nat)
deriving DecidableEq, Repr

/-- The set update performed first in each iteration of the
sensor_time_steps loop (player.cpp lines 392-399): a nonzero requested
period stages a not-yet-active device into `new_sensors`; a period of 0
erases the device from `sensors`. -/
def stageOrErase (st : DevState) (c : SensorTimeStep) : DevState :=
  if c.timestep ≠ 0 then
    if c.name ∈ st.sensors then st
    else { st with new_sensors := insert c.name st.new_sensors }
  else { st with sensors := st.sensors.erase c.name }

/-- One iteration of the sensor_time_steps loop of
`PlayerServer::processBuffer` (player.cpp lines 388-441): the set update
(`stageOrErase`) happens first, then the period validation, then the
`enable(sensor_time_step)` switch for the five supported sensor kinds. -/
def applySensorTimeStep (r : Registry) (bts : Nat) (st : DevState)
    (c : SensorTimeStep) : DevState × List WarnKind :=
  if r.deviceExists c.name then
    if c.timestep ≠ 0 ∧ c.timestep < bts then
      (stageOrErase st c, [WarnKind.periodTooSmall c.name c.timestep])
    else if c.timestep % bts ≠ 0 then
      (stageOrErase st c, [WarnKind.periodNotMultiple c.name c.timestep])
    else
      match r.nodeType c.name with
      | NodeType.accelerometer | NodeType.camera | NodeType.gyro
      | NodeType.positionSensor | NodeType.touchSensor =>
        ({ stageOrErase st c with
            sampling := setP (stageOrErase st c).sampling c.name c.timestep }, [])
      | _ => (stageOrErase st c, [WarnKind.unsupportedDevice c.name])
  else (st, [WarnKind.deviceNotFound c.name])

/-- The whole sensor_time_steps loop over the commands of one or more
`processBuffer` calls of a step (dispatch is per command, so the
commands of successive batches compose by concatenation). -/
def processSensorTimeSteps (r : Registry) (bts : Nat) (st : DevState) :
    List SensorTimeStep → DevState × List WarnKind
  | [] => (st, [])
  | c :: cs =>
    ((processSensorTimeSteps r bts (applySensorTimeStep r bts st c).1 cs).1,
      (applySensorTimeStep r bts st c).2 ++
        (processSensorTimeSteps r bts (applySensorTimeStep r bts st c).1 cs).2)

/-- Method `PlayerServer::updateDevices` (player.cpp lines 564-569): promote
every staged device into `sensors` and clear `new_sensors`. -/
def updateDevices (st : DevState) : DevState :=
  { st with sensors := st.sensors ∪ st.new_sensors, new_sensors := ∅ }

/-- The node types for which `prepareSensorMessage`'s dynamic_cast chain
produces a measurement record (all three touch-sensor types — bumper,
force, force3d — add a record, so the touch type is irrelevant to
membership). -/
def supported : NodeType → Bool
  | NodeType.accelerometer | NodeType.camera | NodeType.gyro
  | NodeType.positionSensor | NodeType.touchSensor => true
  | _ => false

/-- Whether the `prepareSensorMessage` iteration over `sensors`
(player.cpp lines 450-561) adds a measurement for device `d` at
controller time `t`: the device's cast must succeed for one of the five
sensor kinds and `controller_time % getSamplingPeriod()` must be 0.
(In C++ the modulo is undefined when the period is 0; Lean's `t % 0 = t`
is used here, and the reachability of a zero period is itself the
subject of one of the claims.) -/
def measuredHere (r : Registry) (st : DevState) (t d : Nat) : Bool :=
  match r.nodeType d with
  | NodeType.accelerometer | NodeType.camera | NodeType.gyro
  | NodeType.positionSensor | NodeType.touchSensor => t % st.sampling d == 0
  | _ => false

/-- The set of devices contributing a measurement to the snapshot built
at controller time `t`. -/
def sampledDevices (r : Registry) (st : DevState) (t : Nat) : Finset Nat :=
  st.sensors.filter (fun d => measuredHere r st t d = true)

/-- The step-N dispatch-then-snapshot-then-promote order of
`PlayerServer::step` (player.cpp lines 230-272): `receiveMessages`
dispatches the step's commands, `prepareSensorMessage` builds the
snapshot from `sensors`, and only then `updateDevices` promotes the
staged devices. -/
def stepSnapshot (r : Registry) (bts : Nat) (st : DevState)
    (cmds : List SensorTimeStep) (t : Nat) : Finset Nat × DevState :=
  (sampledDevices r (processSensorTimeSteps r bts st cmds).1 t,
    updateDevices (processSensorTimeSteps r bts st cmds).1)

/-! ### Bandwidth quota tracker and outbound snapshot replacement

The protobuf message types (`messages.pb.h`) are generated code that is
not part of this repository's sources; the outbound `SensorMeasurements`
snapshot is therefore modelled from the spec as a record with the
timestamp, the wall-clock stamp, the diagnostic entries and the
measurement records abstracted to their total encoded size. -/

/-- Type tag `Message::message_type` of a diagnostic entry. -/
inductive MsgType where
  | warningMessage | errorMessage
deriving DecidableEq, Repr

/-- Modelled from the spec: the outbound snapshot (`SensorMeasurements`)
of §3 OutboundSnapshot — a timestamp, a wall-clock stamp, zero or more
typed measurements (abstracted to their total encoded byte size
`sensorData`, since only sizes matter to the quota tracker) and zero or
more diagnostic entries. -/
structure Snapshot where
  time : Nat
  real_time : Nat
  messages : List (MsgType × String)
  sensorData : Nat
deriving DecidableEq

/-- Modelled from the spec: byte size of a base-128 varint. -/
def varintSize (n : Nat) : Nat :=
  if n < 2 ^ 7 then 1 else if n < 2 ^ 14 then 2
  else if n < 2 ^ 21 then 3 else if n < 2 ^ 28 then 4 else 5

/-- Modelled from the spec: `SensorMeasurements::ByteSizeLong()` — the
serialized size of the snapshot.  The protobuf definitions are not under
the repository sources, so the encoding is modelled as: one tag byte
plus a varint per scalar field, and per diagnostic entry two tag/length
bytes, two bytes for the type and the text bytes; measurement records
contribute their abstracted size. -/
def byteSizeLong (s : Snapshot) : Nat :=
  1 + varintSize s.time + 1 + varintSize s.real_time +
    (s.messages.map (fun m => 2 + 2 + m.2.length)).sum + s.sensorData

/-- Constant `TEAM_QUOTA` (player.cpp line 60). -/
def TEAM_QUOTA : Nat := 1000 * 1024 * 1024

/-- The text of the quota-exceeded error entry
(`std::to_string(TEAM_QUOTA) + " MB/s quota exceeded."`). -/
def quotaErrorText : String := toString TEAM_QUOTA ++ " MB/s quota exceeded."

/-- The replacement snapshot built when the quota trips:
`sensor_measurements.Clear()` resets every field to its default, then a
single error entry carrying the quota value is added. -/
def errorSnapshot : Snapshot :=
  { time := 0, real_time := 0,
    messages := [(MsgType.errorMessage, quotaErrorText)], sensorData := 0 }

/-- Method `PlayerServer::bandwidth_usage` (player.cpp lines 593-628): write
the new packet size into this step's slot of the own circular window,
then sum the own window together with whatever the teammates' published
windows yield (`teammateSum`; the files of absent teammates read as 0).
Returns the updated window and the total. -/
def bandwidth_usage (bts ct teammateSum : Nat) (w : List Nat) (sz : Nat) :
    List Nat × Nat :=
  ((w.set (ct / bts % (1000 / bts)) sz),
    (w.set (ct / bts % (1000 / bts)) sz).sum + teammateSum)

/-- The outcome of one `sendSensorMessage`: which snapshot was
serialized and framed, its payload size, the published window, and
whether the quota check tripped. -/
structure SendOutcome where
  payload : Snapshot
  payloadSize : Nat
  window : List Nat
  tripped : Bool
deriving DecidableEq

/-- Method `PlayerServer::sendSensorMessage` (player.cpp lines 571-589): check
the original serialized size against the quota; on excess replace the
snapshot wholesale by the single error record and recompute the size;
the (possibly replaced) snapshot is what gets framed and sent, without
any further quota check. -/
def sendSensorMessage (bts ct teammateSum : Nat) (w : List Nat)
    (sm : Snapshot) : SendOutcome :=
  if TEAM_QUOTA < (bandwidth_usage bts ct teammateSum w (byteSizeLong sm)).2 then
    { payload := errorSnapshot, payloadSize := byteSizeLong errorSnapshot,
      window := (bandwidth_usage bts ct teammateSum w (byteSizeLong sm)).1,
      tripped := true }
  else
    { payload := sm, payloadSize := byteSizeLong sm,
      window := (bandwidth_usage bts ct teammateSum w (byteSizeLong sm)).1,
      tripped := false }

/-! ### Blocking send loop -/

/-- Function `send_all` (player.cpp lines 93-102): repeatedly call `send` with
the remaining bytes; a result below 1 aborts with failure, otherwise the
returned count is consumed.  `script` lists the successive return values
of the underlying `send`. -/
def send_all : Nat → List Int → Bool
  | 0, _ => true
  | _ + 1, [] => false
  | length + 1, i :: rest =>
    if i < 1 then false else send_all (length + 1 - i.toNat) rest

/-- Refinement reference, following the spec's words: "repeatedly write
remaining bytes until all are sent or a write fails" — there is a number
of initial writes, all successful (at least one byte each), whose byte
counts cover the whole length. -/
def sendAllSpec (length : Nat) (script : List Int) : Prop :=
  ∃ k, k ≤ script.length ∧ (∀ i ∈ script.take k, 1 ≤ i) ∧
    length ≤ ((script.take k).map Int.toNat).sum

/-- The send path of `sendSensorMessage` as seen by the session: the
code calls `send_all(client_fd, output, 4 + size)` and discards the
result; `client_fd` is left untouched.  Returns (send_all result,
session-open flag afterwards). -/
def sendSensorMessageNet (clientOpen : Bool) (payloadSize : Nat)
    (script : List Int) : Bool × Bool :=
  (send_all (4 + payloadSize) script, clientOpen)

/-! ### Framed transport, network-event model (error policy)

To state the error policy, `recv` outcomes are scripted: `chunk bs`
makes `recv` return the bytes `bs` (so `chunk []` is an orderly
zero-length read, i.e. the peer disconnected), `errno e` makes it return
-1 with the given errno.  An exhausted script reads as would-block.
Linux errno values are used: EAGAIN = EWOULDBLOCK = 11. -/

/-- One scripted outcome of a `recv` call. -/
inductive NetEvent where
  | chunk (bs : List Nat)
  | errno (e : Nat)
deriving DecidableEq, Repr

/-- Linux `EAGAIN`. -/
def EAGAIN : Nat := 11

/-- Linux `EWOULDBLOCK` (equal to `EAGAIN` on Linux). -/
def EWOULDBLOCK : Nat := 11

/-- Method `PlayerServer::receiveData` (player.cpp lines 298-320) over an event
script: loop until `length` bytes are received; on `recv == -1` the
session is closed unless the errno test — written
`errno != EAGAIN || errno != EWOULDBLOCK` in the source — fails, and the
loop breaks either way; on a zero-length read the session is closed and
the loop breaks.  Returns (session stays open, bytes read, remaining
script). -/
def receiveDataN : List NetEvent → Nat → Bool × List Nat × List NetEvent
  | evs, 0 => (true, [], evs)
  | [], _ + 1 => (true, [], [])
  | NetEvent.chunk bs :: rest, n + 1 =>
    if bs.isEmpty then (false, [], rest)
    else if n + 1 ≤ bs.length then
      (true, bs.take (n + 1),
        if bs.length = n + 1 then rest else NetEvent.chunk (bs.drop (n + 1)) :: rest)
    else
      ((receiveDataN rest (n + 1 - bs.length)).1,
        bs ++ (receiveDataN rest (n + 1 - bs.length)).2.1,
        (receiveDataN rest (n + 1 - bs.length)).2.2)
  | NetEvent.errno e :: rest, _ + 1 =>
    if e ≠ EAGAIN ∨ e ≠ EWOULDBLOCK then (false, [], rest) else (true, [], rest)

/-- Session state including the connection flag (`client_fd != -1`) and
the in-flight message fields, which `receiveData` never resets. -/
structure SessState where
  client_open : Bool
  content_size : Nat
  recv_index : Nat
  recv_buffer : List Nat
deriving DecidableEq, Repr

/-- Method `PlayerServer::receiveMessages` over the event script: the drain
loop runs while the session is open, reading a header or the missing
content bytes via `receiveDataN` exactly as in the byte-stream model,
and stops when a read yields no bytes. -/
def receiveMessagesN : Nat → SessState → List NetEvent → SessState × List (List Nat)
  | 0, st, _ => (st, [])
  | fuel + 1, st, evs =>
    if st.client_open = false then (st, [])
    else if st.content_size = 0 then
      if (receiveDataN evs 4).2.1.length = 0 then
        ({ st with
            client_open := (receiveDataN evs 4).1
            content_size := beVal4 (receiveDataN evs 4).2.1
            recv_buffer := [] }, [])
      else
        receiveMessagesN fuel
          { st with
            client_open := (receiveDataN evs 4).1
            content_size := beVal4 (receiveDataN evs 4).2.1
            recv_buffer := [] }
          (receiveDataN evs 4).2.2
    else
      if st.recv_index + (receiveDataN evs (st.content_size - st.recv_index)).2.1.length
          = st.content_size then
        if (receiveDataN evs (st.content_size - st.recv_index)).2.1.length = 0 then
          (⟨(receiveDataN evs (st.content_size - st.recv_index)).1, 0, 0, []⟩,
            [st.recv_buffer ++ (receiveDataN evs (st.content_size - st.recv_index)).2.1])
        else
          ((receiveMessagesN fuel
              ⟨(receiveDataN evs (st.content_size - st.recv_index)).1, 0, 0, []⟩
              (receiveDataN evs (st.content_size - st.recv_index)).2.2).1,
            (st.recv_buffer ++ (receiveDataN evs (st.content_size - st.recv_index)).2.1) ::
              (receiveMessagesN fuel
                ⟨(receiveDataN evs (st.content_size - st.recv_index)).1, 0, 0, []⟩
                (receiveDataN evs (st.content_size - st.recv_index)).2.2).2)
      else
        if (receiveDataN evs (st.content_size - st.recv_index)).2.1.length = 0 then
          ({ st with
              client_open := (receiveDataN evs (st.content_size - st.recv_index)).1
              recv_index := st.recv_index +
                (receiveDataN evs (st.content_size - st.recv_index)).2.1.length
              recv_buffer := st.recv_buffer ++
                (receiveDataN evs (st.content_size - st.recv_index)).2.1 }, [])
        else
          receiveMessagesN fuel
            { st with
              client_open := (receiveDataN evs (st.content_size - st.recv_index)).1
              recv_index := st.recv_index +
                (receiveDataN evs (st.content_size - st.recv_index)).2.1.length
              recv_buffer := st.recv_buffer ++
                (receiveDataN evs (st.content_size - st.recv_index)).2.1 }
            (receiveDataN evs (st.content_size - st.recv_index)).2.2

/-- Total number of data bytes an event script can deliver; bounds the
number of continuing drain-loop iterations. -/
def totalBytes (evs : List NetEvent) : Nat :=
  (evs.map (fun ev => match ev with | NetEvent.chunk bs => bs.length | _ => 0)).sum

/-- One step's receive poll over an event script, with enough fuel for
the drain loop. -/
def receiveMessagesNRun (st : SessState) (evs : List NetEvent) :
    SessState × List (List Nat) :=
  receiveMessagesN (totalBytes evs + 1) st evs

/-! ### Concrete fixtures used by counterexamples and witnesses -/

/-- A registry with a single accelerometer device named 0. -/
def r0 : Registry :=
  { deviceExists := fun n => n = 0, nodeType := fun _ => NodeType.accelerometer }

/-- The subscription state at startup: no active, no staged device, no
device ever enabled. -/
def devState0 : DevState := { sensors := ∅, new_sensors := ∅, sampling := fun _ => 0 }

/-- A state with device 0 active at sampling period 64. -/
def stW : DevState := { sensors := {0}, new_sensors := ∅, sampling := fun _ => 64 }

/-! ## Lemmas and theorems -/

theorem take_app_of_le {a b x y : List Nat} (h : a ++ b = x ++ y)
    (hl : x.length ≤ a.length) :
    a.take x.length = x ∧ a.drop x.length ++ b = y := by
  have h2 : a.take x.length ++ (a.drop x.length ++ b) = x ++ y := by
    rw [← List.append_assoc, List.take_append_drop]; exact h
  have hlen : (a.take x.length).length = x.length := by
    rw [List.length_take]; omega
  exact ⟨(List.append_inj h2 hlen).1, (List.append_inj h2 hlen).2⟩

theorem app_of_le {a b x y : List Nat} (h : a ++ b = x ++ y)
    (hl : a.length ≤ x.length) :
    a = x.take a.length ∧ b = x.drop a.length ++ y := by
  have h2 : a ++ b = x.take a.length ++ (x.drop a.length ++ y) := by
    rw [← List.append_assoc, List.take_append_drop]; exact h
  have hlen : a.length = (x.take a.length).length := by
    rw [List.length_take]; omega
  exact ⟨(List.append_inj h2 hlen).1, (List.append_inj h2 hlen).2⟩

theorem beVal4_toBE4 {n : Nat} (h : n < 2 ^ 32) : beVal4 (toBE4 n) = n := by
  simp only [beVal4, toBE4, List.getD_cons_zero, List.getD_cons_succ]
  omega

theorem toBE4_length (n : Nat) : (toBE4 n).length = 4 := rfl

theorem encodeStream_nil : encodeStream [] = [] := rfl

theorem encodeStream_cons (p : List Nat) (ps : List (List Nat)) :
    encodeStream (p :: ps) = toBE4 p.length ++ (p ++ encodeStream ps) := by
  simp [encodeStream, encodeMsg, List.append_assoc]

theorem encodeStream_eq_nil {msgs : List (List Nat)} (h : encodeStream msgs = []) :
    msgs = [] := by
  cases msgs with
  | nil => rfl
  | cons p ps =>
    rw [encodeStream_cons] at h
    simp [toBE4] at h

theorem configWF_stream_nil {c : Option (List Nat × List Nat)}
    {rem : List (List Nat)} (hwf : ConfigWF c) (h : streamOf c rem = []) :
    c = none ∧ rem = [] := by
  match c with
  | none =>
    refine ⟨rfl, ?_⟩
    simp only [streamOf, pendingBytes, List.nil_append] at h
    exact encodeStream_eq_nil h
  | some (g, m) =>
    simp only [streamOf, pendingBytes] at h
    have := List.append_eq_nil.mp h
    exact absurd this.1 hwf

/-! Evaluation lemmas for the drain loop. -/

theorem recvAux_header_nil (fuel : Nat) :
    receiveMessagesAux (fuel + 1) ⟨0, 0, []⟩ [] = (⟨0, 0, []⟩, []) := by
  simp [receiveMessagesAux, beVal4]

theorem recvAux_header_read (fuel : Nat) {avail : List Nat} (h4 : 4 ≤ avail.length) :
    receiveMessagesAux (fuel + 1) ⟨0, 0, []⟩ avail
      = receiveMessagesAux fuel ⟨beVal4 (avail.take 4), 0, []⟩ (avail.drop 4) := by
  have hl : (avail.take 4).length = 4 := by rw [List.length_take]; omega
  simp [receiveMessagesAux, hl]

theorem recvAux_content_nil (fuel : Nat) {cs i : Nat} (buf : List Nat)
    (hcs : cs ≠ 0) (hi : i < cs) :
    receiveMessagesAux (fuel + 1) ⟨cs, i, buf⟩ [] = (⟨cs, i, buf⟩, []) := by
  simp only [receiveMessagesAux, List.take_nil, List.length_nil, List.drop_nil]
  rw [if_neg hcs, if_neg (by omega)]
  simp

theorem recvAux_content_short (fuel : Nat) {cs i : Nat} (buf : List Nat)
    {avail : List Nat} (hi : i < cs) (h1 : 1 ≤ avail.length)
    (hlt : avail.length < cs - i) (hfuel : 1 ≤ fuel) :
    receiveMessagesAux (fuel + 1) ⟨cs, i, buf⟩ avail
      = (⟨cs, i + avail.length, buf ++ avail⟩, []) := by
  have htake : avail.take (cs - i) = avail := List.take_of_length_le (by omega)
  have hdrop : avail.drop (cs - i) = [] := List.drop_eq_nil_of_le (by omega)
  simp only [receiveMessagesAux]
  rw [if_neg (by omega : ¬cs = 0)]
  simp only [htake, hdrop]
  rw [if_neg (by omega : ¬i + avail.length = cs), if_neg (by omega : ¬avail.length = 0)]
  obtain ⟨f, rfl⟩ : ∃ f, fuel = f + 1 := ⟨fuel - 1, by omega⟩
  exact recvAux_content_nil f (buf ++ avail) (by omega) (by omega)

theorem recvAux_content_complete (fuel : Nat) {cs i : Nat} (buf : List Nat)
    {avail : List Nat} (hi : i < cs) (hge : cs - i ≤ avail.length) :
    receiveMessagesAux (fuel + 1) ⟨cs, i, buf⟩ avail
      = ((receiveMessagesAux fuel ⟨0, 0, []⟩ (avail.drop (cs - i))).1,
          (buf ++ avail.take (cs - i)) ::
            (receiveMessagesAux fuel ⟨0, 0, []⟩ (avail.drop (cs - i))).2) := by
  have htake : (avail.take (cs - i)).length = cs - i := by rw [List.length_take]; omega
  simp only [receiveMessagesAux]
  rw [if_neg (by omega : ¬cs = 0)]
  simp only [htake]
  rw [if_pos (by omega : i + (cs - i) = cs), if_neg (by omega : ¬cs - i = 0)]

theorem mem_headerStarts_shift {s : Nat} {ps : List (List Nat)} (p : List Nat)
    (hs : s ∈ headerStarts ps) : s + (4 + p.length) ∈ headerStarts (p :: ps) := by
  simp only [headerStarts, List.mem_cons, List.mem_map]
  exact Or.inr ⟨s, hs, rfl⟩

theorem zero_mem_headerStarts (p : List Nat) (ps : List (List Nat)) :
    (0 : Nat) ∈ headerStarts (p :: ps) := by
  simp [headerStarts]

theorem mem_startsOf_some {s : Nat} {g m : List Nat} {ps : List (List Nat)}
    (hs : s ∈ headerStarts ps) : s + m.length ∈ startsOf (some (g, m)) ps := by
  simp only [startsOf, List.mem_map]
  exact ⟨s, hs, rfl⟩

/-- Central simulation lemma for the framed transport: from a
well-formed parsing configuration, one step's poll over a chunk of the
remaining stream whose right boundary does not cut strictly inside a
4-byte length header lands in a well-formed configuration for the rest
of the stream and emits exactly the payloads completed inside the
chunk. -/
theorem chunkStep (fuel : Nat) :
    ∀ (c : Option (List Nat × List Nat)) (rem : List (List Nat)) (avail rest : List Nat),
    ConfigWF c → (∀ p ∈ rem, p.length < 2 ^ 32) →
    avail ++ rest = streamOf c rem →
    (∀ s ∈ startsOf c rem, ¬(s < avail.length ∧ avail.length < s + 4)) →
    avail.length < fuel →
    ∃ c2 rem2 done,
      ConfigWF c2 ∧ (∀ p ∈ rem2, p.length < 2 ^ 32) ∧
      streamOf c2 rem2 = rest ∧
      (∀ s ∈ startsOf c2 rem2, s + avail.length ∈ startsOf c rem) ∧
      done ++ outOf c2 rem2 = outOf c rem ∧
      receiveMessagesAux fuel (stateOf c) avail = (stateOf c2, done) := by
  induction fuel with
  | zero => intro c rem avail rest _ _ _ _ hf; omega
  | succ fuel ih =>
    intro c rem avail rest hwf hlen hsplit hcut hf
    rcases c with _ | ⟨g, m⟩
    · -- header mode
      cases avail with
      | nil =>
        refine ⟨none, rem, [], trivial, hlen, ?_, ?_, ?_, recvAux_header_nil fuel⟩
        · simpa using hsplit.symm
        · intro s hs; simpa using hs
        · simp [outOf]
      | cons a as =>
        cases rem with
        | nil =>
          exfalso
          have hnil : streamOf none [] = ([] : List Nat) := by
            simp [streamOf, pendingBytes, encodeStream]
          rw [hnil] at hsplit
          simp at hsplit
        | cons p ps =>
          have h4 : 4 ≤ (a :: as).length := by
            have hc := hcut 0 (zero_mem_headerStarts p ps)
            have hpos : 1 ≤ (a :: as).length := by simp
            omega
          have hstream : (a :: as) ++ rest = toBE4 p.length ++ (p ++ encodeStream ps) := by
            rw [hsplit]
            simp only [streamOf, pendingBytes, List.nil_append]
            exact encodeStream_cons p ps
          obtain ⟨htake, hdrop⟩ := take_app_of_le hstream (by rw [toBE4_length]; exact h4)
          rw [toBE4_length] at htake hdrop
          have heval := recvAux_header_read fuel h4
          rw [htake, beVal4_toBE4 (hlen p (by simp))] at heval
          have hdl : ((a :: as).drop 4).length = (a :: as).length - 4 :=
            List.length_drop 4 (a :: as)
          cases p with
          | nil =>
            have ih2 := ih none ps ((a :: as).drop 4) rest trivial
              (fun q hq => hlen q (List.mem_cons_of_mem _ hq))
              (by simpa [streamOf, pendingBytes] using hdrop)
              (by
                intro s hs
                have hmem := mem_headerStarts_shift [] hs
                have hc := hcut (s + (4 + ([] : List Nat).length)) hmem
                simp only [List.length_nil] at hc
                rw [hdl]
                omega)
              (by rw [hdl]; omega)
            obtain ⟨c2, rem2, done, hwf2, hlen2, hstream2, hshift2, hout2, heq2⟩ := ih2
            refine ⟨c2, rem2, done, hwf2, hlen2, hstream2, ?_, ?_, ?_⟩
            · intro s hs
              have h1 := hshift2 s hs
              have heq : s + ((a :: as).length - 4) + (4 + ([] : List Nat).length)
                  = s + (a :: as).length := by
                simp only [List.length_nil]; omega
              rw [hdl] at h1
              exact heq ▸ mem_headerStarts_shift [] h1
            · rw [hout2]
              simp [outOf, pendingOut, List.filter_cons]
            · exact heval.trans heq2
          | cons q qs =>
            have hwf1 : ConfigWF (some ([], q :: qs)) := by
              simp [ConfigWF]
            have hst1 : stateOf (some (([] : List Nat), q :: qs)) = ⟨(q :: qs).length, 0, []⟩ := by
              simp [stateOf]
            have ih2 := ih (some ([], q :: qs)) ps ((a :: as).drop 4) rest hwf1
              (fun r hr => hlen r (List.mem_cons_of_mem _ hr))
              (by simpa [streamOf, pendingBytes] using hdrop)
              (by
                intro s hs
                simp only [startsOf, List.mem_map] at hs
                obtain ⟨t, ht, rfl⟩ := hs
                have hmem := mem_headerStarts_shift (q :: qs) ht
                have hc := hcut (t + (4 + (q :: qs).length)) hmem
                rw [hdl]
                omega)
              (by rw [hdl]; omega)
            obtain ⟨c2, rem2, done, hwf2, hlen2, hstream2, hshift2, hout2, heq2⟩ := ih2
            refine ⟨c2, rem2, done, hwf2, hlen2, hstream2, ?_, ?_, ?_⟩
            · intro s hs
              have h1 := hshift2 s hs
              rw [hdl] at h1
              simp only [startsOf, List.mem_map] at h1
              obtain ⟨t, ht, hteq⟩ := h1
              have heq : t + (4 + (q :: qs).length) = s + (a :: as).length := by omega
              exact heq ▸ mem_headerStarts_shift (q :: qs) ht
            · rw [hout2]
              simp [outOf, pendingOut, List.filter_cons]
            · calc receiveMessagesAux (fuel + 1) (stateOf none) (a :: as)
                  = receiveMessagesAux fuel ⟨(q :: qs).length, 0, []⟩ ((a :: as).drop 4) :=
                    heval
                _ = (stateOf c2, done) := by rw [← hst1]; exact heq2
    · -- content mode: m is nonempty, stateOf is ⟨|g| + |m|, |g|, g⟩
      have hm1 : 1 ≤ m.length := by
        cases m with
        | nil => exact absurd rfl hwf
        | cons x xs => simp
      simp only [streamOf, pendingBytes] at hsplit
      cases avail with
      | nil =>
        refine ⟨some (g, m), rem, [], hwf, hlen, ?_, ?_, ?_, ?_⟩
        · simpa [streamOf, pendingBytes] using hsplit.symm
        · intro s hs; simpa using hs
        · simp [outOf]
        · exact recvAux_content_nil fuel g (by omega) (by omega)
      | cons a as =>
        by_cases hlt : (a :: as).length < m.length
        · -- partial content read: the chunk ends inside the payload
          obtain ⟨htk, hdr⟩ := app_of_le hsplit (by omega)
          have heval := @recvAux_content_short fuel (g.length + m.length)
            g.length g (a :: as) (by omega) (by simp) (by omega) (by
              have : 1 ≤ (a :: as).length := by simp
              omega)
          have hst2 : stateOf (some (g ++ (a :: as), m.drop (a :: as).length))
              = ⟨g.length + m.length, g.length + (a :: as).length, g ++ (a :: as)⟩ := by
            simp only [stateOf, List.length_append, List.length_drop]
            have : g.length + (a :: as).length + (m.length - (a :: as).length)
                = g.length + m.length := by omega
            rw [this]
          refine ⟨some (g ++ (a :: as), m.drop (a :: as).length), rem, [], ?_, hlen, ?_, ?_, ?_, ?_⟩
          · have : 0 < (m.drop (a :: as).length).length := by
              rw [List.length_drop]; omega
            exact List.ne_nil_of_length_pos this
          · simp only [streamOf, pendingBytes]
            rw [← hdr]
          · intro s hs
            simp only [startsOf, List.mem_map] at hs ⊢
            obtain ⟨t, ht, hteq⟩ := hs
            refine ⟨t, ht, ?_⟩
            rw [List.length_drop] at hteq
            omega
          · simp only [outOf, pendingOut, List.nil_append]
            have h1 : (a :: as) ++ m.drop (a :: as).length = m := by
              conv_rhs => rw [← List.take_append_drop (a :: as).length m]
              rw [← htk]
            rw [List.append_assoc, h1]
          · show receiveMessagesAux (fuel + 1) ⟨g.length + m.length, g.length, g⟩ (a :: as)
              = (stateOf (some (g ++ (a :: as), m.drop (a :: as).length)), [])
            rw [heval, hst2]
        · -- the chunk completes the current payload
          have hge : m.length ≤ (a :: as).length := by omega
          obtain ⟨htk, hdr⟩ := take_app_of_le hsplit hge
          have heval := @recvAux_content_complete fuel (g.length + m.length)
            g.length g (a :: as) (by omega) (by omega)
          have hLg : g.length + m.length - g.length = m.length := by omega
          rw [hLg, htk] at heval
          have ih2 := ih none rem ((a :: as).drop m.length) rest trivial hlen
            (by simpa [streamOf, pendingBytes] using hdr)
            (by
              intro s hs
              have hmem := @mem_startsOf_some s g m rem hs
              have hc := hcut (s + m.length) hmem
              rw [List.length_drop]
              omega)
            (by rw [List.length_drop]; omega)
          obtain ⟨c2, rem2, done, hwf2, hlen2, hstream2, hshift2, hout2, heq2⟩ := ih2
          refine ⟨c2, rem2, (g ++ m) :: done, hwf2, hlen2, hstream2, ?_, ?_, ?_⟩
          · intro s hs
            have h1 := hshift2 s hs
            rw [List.length_drop] at h1
            simp only [startsOf, List.mem_map]
            exact ⟨s + ((a :: as).length - m.length), h1, by omega⟩
          · simp only [outOf, pendingOut, List.cons_append, List.nil_append] at hout2 ⊢
            rw [hout2]
          · have heq2b : receiveMessagesAux fuel ⟨0, 0, []⟩ ((a :: as).drop m.length)
                = (stateOf c2, done) := heq2
            show receiveMessagesAux (fuel + 1) ⟨g.length + m.length, g.length, g⟩ (a :: as)
              = (stateOf c2, (g ++ m) :: done)
            rw [heval, heq2b]

/-- Multi-step corollary of `chunkStep`: over a whole chunking whose
boundaries never cut strictly inside a header, the drain loop emits
exactly the nonempty payloads of the stream. -/
theorem runAligned : ∀ (chunks : List (List Nat)) (c : Option (List Nat × List Nat))
    (rem : List (List Nat)),
    ConfigWF c → (∀ p ∈ rem, p.length < 2 ^ 32) →
    chunks.flatten = streamOf c rem →
    (∀ q ∈ cumSums (chunks.map List.length), ∀ s ∈ startsOf c rem,
      ¬(s < q ∧ q < s + 4)) →
    runSteps (stateOf c) chunks = (⟨0, 0, []⟩, outOf c rem) := by
  intro chunks
  induction chunks with
  | nil =>
    intro c rem hwf hlen hjoin halign
    obtain ⟨hc, hrem⟩ := configWF_stream_nil hwf (by simpa using hjoin.symm)
    subst hc; subst hrem
    simp [runSteps, outOf, pendingOut, stateOf]
  | cons ch chs ihc =>
    intro c rem hwf hlen hjoin halign
    rw [List.flatten_cons] at hjoin
    obtain ⟨c2, rem2, done, hwf2, hlen2, hstream2, hshift2, hout2, heq2⟩ :=
      chunkStep (ch.length + 1) c rem ch chs.flatten hwf hlen hjoin
        (fun s hs => halign ch.length (by simp [cumSums]) s hs)
        (by omega)
    have halign2 : ∀ q ∈ cumSums (chs.map List.length), ∀ s ∈ startsOf c2 rem2,
        ¬(s < q ∧ q < s + 4) := by
      intro q hq s hs
      have hq2 : q + ch.length ∈ cumSums ((ch :: chs).map List.length) := by
        simp only [List.map_cons, cumSums, List.mem_cons, List.mem_map]
        exact Or.inr ⟨q, hq, rfl⟩
      have hc := halign (q + ch.length) hq2 (s + ch.length) (hshift2 s hs)
      omega
    have ih2 := ihc c2 rem2 hwf2 hlen2 hstream2.symm halign2
    simp only [runSteps, receiveMessages, heq2, ih2]
    rw [hout2]

/-- Delivering each message whole (one chunk per message) emits exactly
the nonempty payloads. -/
theorem runPerMessage : ∀ (msgs : List (List Nat)),
    (∀ p ∈ msgs, p.length < 2 ^ 32) →
    runSteps ⟨0, 0, []⟩ (msgs.map encodeMsg) = (⟨0, 0, []⟩, outOf none msgs) := by
  intro msgs
  induction msgs with
  | nil => intro _; simp [runSteps, outOf, pendingOut]
  | cons p ps ihp =>
    intro hlen
    have hel : (encodeMsg p).length = 4 + p.length := by
      simp only [encodeMsg, List.length_append, toBE4_length]
    obtain ⟨c2, rem2, done, hwf2, hlen2, hstream2, hshift2, hout2, heq2⟩ :=
      chunkStep ((encodeMsg p).length + 1) none [p] (encodeMsg p) [] trivial
        (by
          intro q hq
          have hq2 : q = p := by simpa using hq
          rw [hq2]
          exact hlen p (List.mem_cons_self p ps))
        (by simp [streamOf, pendingBytes, encodeStream])
        (by
          intro s hs
          simp only [startsOf, headerStarts, List.map_nil, List.mem_singleton] at hs
          subst hs
          omega)
        (by omega)
    obtain ⟨hc2, hrem2⟩ := configWF_stream_nil hwf2 hstream2
    subst hc2; subst hrem2
    have hdone : done = outOf none [p] := by
      have h1 := hout2
      simpa [outOf, pendingOut] using h1
    have heq2b : receiveMessagesAux ((encodeMsg p).length + 1) ⟨0, 0, []⟩ (encodeMsg p)
        = (⟨0, 0, []⟩, done) := heq2
    have ih2 := ihp (fun q hq => hlen q (List.mem_cons_of_mem _ hq))
    simp only [List.map_cons, runSteps, receiveMessages, heq2b, ih2]
    rw [hdone]
    cases hp : p.isEmpty <;>
      simp [outOf, pendingOut, List.filter_cons, hp]

/-- C1 (amended): chunking invariance of the framed transport for every
chunking whose chunk boundaries never fall strictly inside a 4-byte
length header.  The command dispatcher receives the same payload
sequence as when each message is delivered whole. -/
theorem C1_chunking_invariance (msgs chunks : List (List Nat))
    (hlen : ∀ p ∈ msgs, p.length < 2 ^ 32)
    (hjoin : chunks.flatten = encodeStream msgs)
    (halign : ∀ q ∈ cumSums (chunks.map List.length), ∀ s ∈ headerStarts msgs,
      ¬(s < q ∧ q < s + 4)) :
    (runSteps ⟨0, 0, []⟩ chunks).2 = (runSteps ⟨0, 0, []⟩ (msgs.map encodeMsg)).2 := by
  have hl : runSteps (stateOf none) chunks = (⟨0, 0, []⟩, outOf none msgs) :=
    runAligned chunks none msgs trivial hlen
      (by simpa [streamOf, pendingBytes] using hjoin)
      (by intro q hq s hs; exact halign q hq s hs)
  have hr := runPerMessage msgs hlen
  have hl2 : runSteps ⟨0, 0, []⟩ chunks = (⟨0, 0, []⟩, outOf none msgs) := hl
  rw [hl2, hr]

/-- C1 witness: a two-chunk split of a single 2-byte message with the
boundary inside the payload is reassembled exactly as whole delivery. -/
theorem C1_chunking_invariance_witness :
    (runSteps ⟨0, 0, []⟩ [[0, 0, 0, 2, 7], [8]]).2
      = (runSteps ⟨0, 0, []⟩ ([[7, 8]].map encodeMsg)).2 :=
  C1_chunking_invariance [[7, 8]] [[0, 0, 0, 2, 7], [8]]
    (by decide) (by decide) (by decide)

/-- C1 counterexample: the stream of the single message with payload
`[42]` (header `[0,0,0,1]`), split inside the header after two bytes,
is not reassembled: the dispatcher receives nothing instead of `[42]`,
although the same stream delivered whole yields `[42]`.  The partial
header read is treated as a complete header (`ntohl` of the partially
overwritten length word), desynchronizing the transport. -/
theorem C1_header_split_counterexample :
    ([[0, 0], [0, 1, 42]] : List (List Nat)).flatten = encodeStream [[42]] ∧
    (runSteps ⟨0, 0, []⟩ [[0, 0], [0, 1, 42]]).2 = [] ∧
    (runSteps ⟨0, 0, []⟩ [encodeStream [[42]]]).2 = [[42]] := by
  refine ⟨by decide, by decide, by decide⟩

/-! Subscription-machine lemmas. -/

theorem stageOrErase_of_ne_zero (st : DevState) (c : SensorTimeStep)
    (h : c.timestep ≠ 0) :
    (stageOrErase st c).sensors = st.sensors ∧
    (stageOrErase st c).sampling = st.sampling ∧
    (stageOrErase st c).new_sensors =
      (if c.name ∈ st.sensors then st.new_sensors else insert c.name st.new_sensors) := by
  unfold stageOrErase
  rw [if_pos h]
  by_cases hm : c.name ∈ st.sensors
  · rw [if_pos hm, if_pos hm]
    exact ⟨rfl, rfl, rfl⟩
  · rw [if_neg hm, if_neg hm]
    exact ⟨rfl, rfl, rfl⟩

theorem stageOrErase_of_zero (st : DevState) (c : SensorTimeStep)
    (h : c.timestep = 0) :
    (stageOrErase st c).sensors = st.sensors.erase c.name ∧
    (stageOrErase st c).sampling = st.sampling ∧
    (stageOrErase st c).new_sensors = st.new_sensors := by
  unfold stageOrErase
  rw [if_neg (by simp [h])]
  exact ⟨rfl, rfl, rfl⟩

theorem stageOrErase_sensors_subset (st : DevState) (c : SensorTimeStep) :
    (stageOrErase st c).sensors ⊆ st.sensors := by
  by_cases h : c.timestep = 0
  · rw [(stageOrErase_of_zero st c h).1]
    exact Finset.erase_subset _ _
  · rw [(stageOrErase_of_ne_zero st c h).1]

theorem stageOrErase_disjoint (st : DevState) (c : SensorTimeStep)
    (h : Disjoint st.sensors st.new_sensors) :
    Disjoint (stageOrErase st c).sensors (stageOrErase st c).new_sensors := by
  by_cases h0 : c.timestep = 0
  · obtain ⟨h1, _, h3⟩ := stageOrErase_of_zero st c h0
    rw [h1, h3]
    exact Finset.disjoint_of_subset_left (Finset.erase_subset _ _) h
  · obtain ⟨h1, _, h3⟩ := stageOrErase_of_ne_zero st c h0
    rw [h1, h3]
    by_cases hm : c.name ∈ st.sensors
    · rw [if_pos hm]; exact h
    · rw [if_neg hm]
      exact Finset.disjoint_insert_right.mpr ⟨hm, h⟩

theorem stageOrErase_keeps_active {d : Nat} (st : DevState) (c : SensorTimeStep)
    (hd : d ∈ st.sensors) (hnot : ¬(c.name = d ∧ c.timestep = 0)) :
    d ∈ (stageOrErase st c).sensors := by
  by_cases h0 : c.timestep = 0
  · rw [(stageOrErase_of_zero st c h0).1]
    have hne : c.name ≠ d := fun h => hnot ⟨h, h0⟩
    exact Finset.mem_erase.mpr ⟨fun h => hne h.symm, hd⟩
  · rw [(stageOrErase_of_ne_zero st c h0).1]
    exact hd

/-- The four outcomes of a dispatched command leave the two sets equal
either to the input state's sets (device not found) or to
`stageOrErase`'s sets. -/
theorem applySensorTimeStep_sets (r : Registry) (bts : Nat) (st : DevState)
    (c : SensorTimeStep) :
    ((applySensorTimeStep r bts st c).1.sensors = st.sensors ∧
      (applySensorTimeStep r bts st c).1.new_sensors = st.new_sensors) ∨
    ((applySensorTimeStep r bts st c).1.sensors = (stageOrErase st c).sensors ∧
      (applySensorTimeStep r bts st c).1.new_sensors = (stageOrErase st c).new_sensors) := by
  unfold applySensorTimeStep
  by_cases hex : r.deviceExists c.name
  · rw [if_pos hex]
    split
    · exact Or.inr ⟨rfl, rfl⟩
    · split
      · exact Or.inr ⟨rfl, rfl⟩
      · split <;> exact Or.inr ⟨rfl, rfl⟩
  · rw [if_neg hex]
    exact Or.inl ⟨rfl, rfl⟩

theorem applySensorTimeStep_sensors_subset (r : Registry) (bts : Nat) (st : DevState)
    (c : SensorTimeStep) : (applySensorTimeStep r bts st c).1.sensors ⊆ st.sensors := by
  rcases applySensorTimeStep_sets r bts st c with ⟨h1, _⟩ | ⟨h1, _⟩
  · rw [h1]
  · rw [h1]; exact stageOrErase_sensors_subset st c

theorem applySensorTimeStep_disjoint (r : Registry) (bts : Nat) (st : DevState)
    (c : SensorTimeStep) (h : Disjoint st.sensors st.new_sensors) :
    Disjoint (applySensorTimeStep r bts st c).1.sensors
      (applySensorTimeStep r bts st c).1.new_sensors := by
  rcases applySensorTimeStep_sets r bts st c with ⟨h1, h2⟩ | ⟨h1, h2⟩
  · rw [h1, h2]; exact h
  · rw [h1, h2]; exact stageOrErase_disjoint st c h

theorem applySensorTimeStep_keeps_active {d : Nat} (r : Registry) (bts : Nat)
    (st : DevState) (c : SensorTimeStep) (hd : d ∈ st.sensors)
    (hnot : ¬(c.name = d ∧ c.timestep = 0)) :
    d ∈ (applySensorTimeStep r bts st c).1.sensors := by
  rcases applySensorTimeStep_sets r bts st c with ⟨h1, _⟩ | ⟨h1, _⟩
  · rw [h1]; exact hd
  · rw [h1]; exact stageOrErase_keeps_active st c hd hnot

theorem applySensorTimeStep_disable (r : Registry) (bts : Nat) (st : DevState)
    (c : SensorTimeStep) (hex : r.deviceExists c.name = true) (h0 : c.timestep = 0) :
    c.name ∉ (applySensorTimeStep r bts st c).1.sensors := by
  have herase : c.name ∉ (stageOrErase st c).sensors := by
    rw [(stageOrErase_of_zero st c h0).1]
    exact Finset.not_mem_erase _ _
  unfold applySensorTimeStep
  rw [if_pos hex, if_neg (by simp [h0]), if_neg (by simp [h0])]
  split <;> exact herase

theorem process_sensors_subset (r : Registry) (bts : Nat) :
    ∀ (cmds : List SensorTimeStep) (st : DevState),
    (processSensorTimeSteps r bts st cmds).1.sensors ⊆ st.sensors := by
  intro cmds
  induction cmds with
  | nil => intro st x hx; exact hx
  | cons c cs ihc =>
    intro st
    simp only [processSensorTimeSteps]
    intro x hx
    exact applySensorTimeStep_sensors_subset r bts st c (ihc _ hx)

theorem process_disjoint (r : Registry) (bts : Nat) :
    ∀ (cmds : List SensorTimeStep) (st : DevState),
    Disjoint st.sensors st.new_sensors →
    Disjoint (processSensorTimeSteps r bts st cmds).1.sensors
      (processSensorTimeSteps r bts st cmds).1.new_sensors := by
  intro cmds
  induction cmds with
  | nil => intro st h; exact h
  | cons c cs ihc =>
    intro st h
    simp only [processSensorTimeSteps]
    exact ihc _ (applySensorTimeStep_disjoint r bts st c h)

theorem process_keeps_active {d : Nat} (r : Registry) (bts : Nat) :
    ∀ (cmds : List SensorTimeStep) (st : DevState), d ∈ st.sensors →
    (∀ c ∈ cmds, ¬(c.name = d ∧ c.timestep = 0)) →
    d ∈ (processSensorTimeSteps r bts st cmds).1.sensors := by
  intro cmds
  induction cmds with
  | nil => intro st hd _; exact hd
  | cons c cs ihc =>
    intro st hd hnot
    simp only [processSensorTimeSteps]
    exact ihc _
      (applySensorTimeStep_keeps_active r bts st c hd (hnot c (List.mem_cons_self c cs)))
      (fun x hx => hnot x (List.mem_cons_of_mem c hx))

theorem process_not_active_mono {d : Nat} (r : Registry) (bts : Nat)
    (cmds : List SensorTimeStep) (st : DevState) (hd : d ∉ st.sensors) :
    d ∉ (processSensorTimeSteps r bts st cmds).1.sensors :=
  fun h => hd (process_sensors_subset r bts cmds st h)

theorem process_disable {d : Nat} (r : Registry) (bts : Nat) :
    ∀ (cmds : List SensorTimeStep) (st : DevState),
    (∃ c ∈ cmds, c.name = d ∧ c.timestep = 0 ∧ r.deviceExists d = true) →
    d ∉ (processSensorTimeSteps r bts st cmds).1.sensors := by
  intro cmds
  induction cmds with
  | nil =>
    intro st h
    obtain ⟨c, hc, _⟩ := h
    exact absurd hc (List.not_mem_nil c)
  | cons c cs ihc =>
    intro st h
    obtain ⟨c0, hc0, hname, hts, hex⟩ := h
    simp only [processSensorTimeSteps]
    rcases List.mem_cons.mp hc0 with hh | hh
    · subst hh
      refine process_not_active_mono r bts cs _ ?_
      have := applySensorTimeStep_disable r bts st c0 (by rw [hname]; exact hex) hts
      rw [hname] at this
      exact this
    · exact ihc _ ⟨c0, hh, hname, hts, hex⟩

theorem mem_sampledDevices {r : Registry} {st : DevState} {t d : Nat} :
    d ∈ sampledDevices r st t ↔ d ∈ st.sensors ∧ measuredHere r st t d = true :=
  Finset.mem_filter

theorem measuredHere_iff (r : Registry) (st : DevState) (t d : Nat) :
    measuredHere r st t d = true ↔
      supported (r.nodeType d) = true ∧ t % st.sampling d = 0 := by
  cases hnt : r.nodeType d <;> simp [measuredHere, supported, hnt]

/-- C2: subscription-promotion ordering.  With `st` the state at the
start of step N and `cmds` the commands dispatched in step N:
a previously inactive device (in particular one staged by an accepted
enable in step N) contributes nothing to the step-N snapshot; a device
for which a period-0 disable of an existing device is dispatched in
step N contributes nothing to the step-N snapshot; and a device staged
in step N is active from step N+1 on (as long as step N+1 dispatches no
disable for it), contributing to the step-N+1 snapshot exactly when its
kind is supported and its period condition holds. -/
theorem C2_subscription_promotion (r : Registry) (bts : Nat) (st : DevState)
    (cmds cmdsN : List SensorTimeStep) (t tN : Nat) (d e : Nat)
    (hinactive : d ∉ st.sensors) :
    (d ∉ (stepSnapshot r bts st cmds t).1) ∧
    ((∃ c ∈ cmds, c.name = e ∧ c.timestep = 0 ∧ r.deviceExists e = true) →
      e ∉ (stepSnapshot r bts st cmds t).1) ∧
    (d ∈ (processSensorTimeSteps r bts st cmds).1.new_sensors →
      (∀ c ∈ cmdsN, ¬(c.name = d ∧ c.timestep = 0)) →
      d ∈ (processSensorTimeSteps r bts (stepSnapshot r bts st cmds t).2 cmdsN).1.sensors ∧
      (d ∈ (stepSnapshot r bts (stepSnapshot r bts st cmds t).2 cmdsN tN).1 ↔
        supported (r.nodeType d) = true ∧
          tN % (processSensorTimeSteps r bts
            (stepSnapshot r bts st cmds t).2 cmdsN).1.sampling d = 0)) := by
  refine ⟨?_, ?_, ?_⟩
  · intro hmem
    have h1 := (mem_sampledDevices.mp hmem).1
    exact process_not_active_mono r bts cmds st hinactive h1
  · intro hdis hmem
    have h1 := (mem_sampledDevices.mp hmem).1
    exact process_disable r bts cmds st hdis h1
  · intro hpend hnodis
    have hstep2 : d ∈ (stepSnapshot r bts st cmds t).2.sensors := by
      simp only [stepSnapshot, updateDevices]
      exact Finset.mem_union_right _ hpend
    have hactive := process_keeps_active r bts cmdsN
      (stepSnapshot r bts st cmds t).2 hstep2 hnodis
    refine ⟨hactive, ?_⟩
    simp only [stepSnapshot]
    rw [mem_sampledDevices, measuredHere_iff]
    constructor
    · intro h; exact h.2
    · intro h; exact ⟨hactive, h⟩

/-- C2 witness: with step size 32, enabling accelerometer 0 at period 64
in step N keeps it out of the step-N snapshot and puts it into the
step-N+1 snapshot at controller time 64. -/
theorem C2_subscription_promotion_witness :
    (0 ∉ (stepSnapshot r0 32 devState0 [⟨0, 64⟩] 32).1) ∧
    (0 ∈ (stepSnapshot r0 32 (stepSnapshot r0 32 devState0 [⟨0, 64⟩] 32).2 [] 64).1) := by
  have h := C2_subscription_promotion r0 32 devState0 [⟨0, 64⟩] [] 32 64 0 1
    (by decide)
  refine ⟨h.1, ?_⟩
  have h3 := h.2.2 (by decide) (by intro c hc; exact absurd hc (List.not_mem_nil c))
  exact h3.2.mpr (by decide)

/-- C3: the claim that the active set never holds a device with
sampling period 0 fails on the code: a rejected nonzero period
(48 with step 32) still stages the device before validation, `enable`
is never called, and the promotion makes the device active with its
sampling period still 0 — the next snapshot build then evaluates
`controller_time % 0` (undefined behavior in the C++). -/
theorem C3_zero_period_active_reachable :
    0 ∈ (updateDevices (processSensorTimeSteps r0 32 devState0 [⟨0, 48⟩]).1).sensors ∧
    (updateDevices (processSensorTimeSteps r0 32 devState0 [⟨0, 48⟩]).1).sampling 0 = 0 ∧
    supported (r0.nodeType 0) = true := by
  refine ⟨by decide, by decide, by decide⟩

/-- C4 counterexample: the command (device 0, period 48) with step 32 is
rejected with exactly one warning, yet the dispatcher does not leave the
subscription state unchanged: the device is staged as pending-active. -/
theorem C4_reject_stages_counterexample :
    (applySensorTimeStep r0 32 devState0 ⟨0, 48⟩).2
        = [WarnKind.periodNotMultiple 0 48] ∧
    (applySensorTimeStep r0 32 devState0 ⟨0, 48⟩).1.new_sensors = {0} ∧
    devState0.new_sensors = ∅ := by
  refine ⟨by decide, by decide, by decide⟩

/-- C4 (amended): a subscription command naming an existing device with
a nonzero period below the step duration or not divisible by it emits
exactly one warning, configures no sampling and leaves the active set
unchanged — but, the set update preceding validation, a currently
inactive device is nonetheless staged as pending-active. -/
theorem C4_rejected_subscription (r : Registry) (bts : Nat) (st : DevState)
    (c : SensorTimeStep) (hex : r.deviceExists c.name = true)
    (hnz : c.timestep ≠ 0) (hbad : c.timestep < bts ∨ c.timestep % bts ≠ 0) :
    (applySensorTimeStep r bts st c).2.length = 1 ∧
    (applySensorTimeStep r bts st c).1.sampling = st.sampling ∧
    (applySensorTimeStep r bts st c).1.sensors = st.sensors ∧
    (applySensorTimeStep r bts st c).1.new_sensors
      = (if c.name ∈ st.sensors then st.new_sensors
          else insert c.name st.new_sensors) := by
  obtain ⟨hs, hp, hn⟩ := stageOrErase_of_ne_zero st c hnz
  unfold applySensorTimeStep
  rw [if_pos hex]
  by_cases hb2 : c.timestep ≠ 0 ∧ c.timestep < bts
  · rw [if_pos hb2]
    exact ⟨rfl, hp, hs, hn⟩
  · rw [if_neg hb2, if_pos (by omega)]
    exact ⟨rfl, hp, hs, hn⟩

/-- C4 witness: concrete instance of the amended theorem at the
counterexample input. -/
theorem C4_rejected_subscription_witness :
    (applySensorTimeStep r0 32 devState0 ⟨0, 48⟩).2.length = 1 ∧
    (applySensorTimeStep r0 32 devState0 ⟨0, 48⟩).1.sampling = devState0.sampling ∧
    (applySensorTimeStep r0 32 devState0 ⟨0, 48⟩).1.sensors = devState0.sensors ∧
    (applySensorTimeStep r0 32 devState0 ⟨0, 48⟩).1.new_sensors
      = (if (0 : Nat) ∈ devState0.sensors then devState0.new_sensors
          else insert 0 devState0.new_sensors) :=
  C4_rejected_subscription r0 32 devState0 ⟨0, 48⟩ (by decide) (by decide)
    (Or.inr (by decide))

/-- C5 counterexample: the batch [(device 0, period 64), (device 0,
period 0)] with step 32 ends the dispatch with device 0 disabled
(sampling period 0) yet still a member of the pending set — the claim
that a period-0 device belongs to neither set fails. -/
theorem C5_period0_pending_counterexample :
    0 ∈ (processSensorTimeSteps r0 32 devState0 [⟨0, 64⟩, ⟨0, 0⟩]).1.new_sensors ∧
    (processSensorTimeSteps r0 32 devState0 [⟨0, 64⟩, ⟨0, 0⟩]).1.sampling 0 = 0 ∧
    (processSensorTimeSteps r0 32 devState0 [⟨0, 64⟩, ⟨0, 0⟩]).1.sensors = ∅ := by
  refine ⟨by decide, by decide, by decide⟩

/-- C5 (amended): after every dispatch call and every pending-to-active
promotion the two reporting sets stay disjoint (each device is in at
most one of them); the period-0-in-neither-set half of the claimed
invariant does not hold (see the counterexample), because a period-0
command erases only the active set, never the pending set. -/
theorem C5_sets_disjoint_invariant (r : Registry) (bts : Nat)
    (cmds : List SensorTimeStep) (st : DevState)
    (h : Disjoint st.sensors st.new_sensors) :
    Disjoint (processSensorTimeSteps r bts st cmds).1.sensors
      (processSensorTimeSteps r bts st cmds).1.new_sensors ∧
    Disjoint (updateDevices (processSensorTimeSteps r bts st cmds).1).sensors
      (updateDevices (processSensorTimeSteps r bts st cmds).1).new_sensors := by
  refine ⟨process_disjoint r bts cmds st h, ?_⟩
  simp only [updateDevices]
  exact Finset.disjoint_empty_right _

/-- C5 witness: the disjointness invariant at the counterexample
batch. -/
theorem C5_sets_disjoint_invariant_witness :
    Disjoint (processSensorTimeSteps r0 32 devState0 [⟨0, 64⟩, ⟨0, 0⟩]).1.sensors
      (processSensorTimeSteps r0 32 devState0 [⟨0, 64⟩, ⟨0, 0⟩]).1.new_sensors :=
  (C5_sets_disjoint_invariant r0 32 [⟨0, 64⟩, ⟨0, 0⟩] devState0 (by decide)).1

/-- C7: a supported active device with configured period P (a positive
multiple of the step duration S) contributes a measurement at controller
time t exactly when `t % P = 0`. -/
theorem C7_sampling_alignment (r : Registry) (st : DevState) (d P S t : Nat)
    (hmem : d ∈ st.sensors) (hsupp : supported (r.nodeType d) = true)
    (hP : st.sampling d = P) (hS : 0 < S) (hmul : P % S = 0) (hPpos : 0 < P) :
    d ∈ sampledDevices r st t ↔ t % P = 0 := by
  rw [mem_sampledDevices, measuredHere_iff, hP]
  constructor
  · intro h; exact h.2.2
  · intro h; exact ⟨hmem, hsupp, h⟩

/-- C7 witness: S = 32, P = 64 — the device is sampled at t = 0, 64,
128 and not at t = 32, 96. -/
theorem C7_sampling_alignment_witness :
    ((0 : Nat) ∈ sampledDevices r0 stW 0) ∧ (0 ∈ sampledDevices r0 stW 64) ∧
    (0 ∈ sampledDevices r0 stW 128) ∧ (0 ∉ sampledDevices r0 stW 32) ∧
    (0 ∉ sampledDevices r0 stW 96) :=
  ⟨(C7_sampling_alignment r0 stW 0 64 32 0 (by decide) (by decide) rfl (by decide)
      (by decide) (by decide)).mpr (by decide),
   (C7_sampling_alignment r0 stW 0 64 32 64 (by decide) (by decide) rfl (by decide)
      (by decide) (by decide)).mpr (by decide),
   (C7_sampling_alignment r0 stW 0 64 32 128 (by decide) (by decide) rfl (by decide)
      (by decide) (by decide)).mpr (by decide),
   fun h => absurd ((C7_sampling_alignment r0 stW 0 64 32 32 (by decide) (by decide)
      rfl (by decide) (by decide) (by decide)).mp h) (by decide),
   fun h => absurd ((C7_sampling_alignment r0 stW 0 64 32 96 (by decide) (by decide)
      rfl (by decide) (by decide) (by decide)).mp h) (by decide)⟩

/-! Quota tracker lemmas. -/

theorem getD_set_self : ∀ (l : List Nat) (i v : Nat), i < l.length →
    (l.set i v).getD i 0 = v := by
  intro l
  induction l with
  | nil => intro i v h; simp at h
  | cons x xs ihl =>
    intro i v h
    cases i with
    | zero => simp [List.set]
    | succ j =>
      simp only [List.set, List.getD_cons_succ]
      exact ihl j v (by simpa using h)

/-- C6 (amended): whenever the quota check on the original serialized
size reports team usage above the quota, the outbound snapshot is
replaced wholesale by exactly one error record carrying the quota value,
that replacement is what is framed and sent, and no second quota check
happens (the window slot keeps the original size and the replacement is
sent unconditionally).  The replacement is, however, not necessarily
smaller than the original payload (see the counterexample). -/
theorem C6_quota_replacement (bts ct teammateSum : Nat) (w : List Nat) (sm : Snapshot)
    (htrip : TEAM_QUOTA < (bandwidth_usage bts ct teammateSum w (byteSizeLong sm)).2) :
    (sendSensorMessage bts ct teammateSum w sm).tripped = true ∧
    (sendSensorMessage bts ct teammateSum w sm).payload = errorSnapshot ∧
    (sendSensorMessage bts ct teammateSum w sm).payload.messages
      = [(MsgType.errorMessage, quotaErrorText)] ∧
    (sendSensorMessage bts ct teammateSum w sm).payloadSize
      = byteSizeLong errorSnapshot ∧
    (sendSensorMessage bts ct teammateSum w sm).window
      = w.set (ct / bts % (1000 / bts)) (byteSizeLong sm) := by
  unfold sendSensorMessage
  rw [if_pos htrip]
  exact ⟨rfl, rfl, rfl, rfl, rfl⟩

/-- C6 witness: concrete quota trip (teammate usage already above
quota) with all replacement properties of the amended claim. -/
theorem C6_quota_replacement_witness :
    (sendSensorMessage 32 32 (TEAM_QUOTA + 1) (List.replicate 31 0)
        ⟨0, 0, [], 0⟩).tripped = true ∧
    (sendSensorMessage 32 32 (TEAM_QUOTA + 1) (List.replicate 31 0)
        ⟨0, 0, [], 0⟩).payload = errorSnapshot ∧
    (sendSensorMessage 32 32 (TEAM_QUOTA + 1) (List.replicate 31 0)
        ⟨0, 0, [], 0⟩).payload.messages = [(MsgType.errorMessage, quotaErrorText)] ∧
    (sendSensorMessage 32 32 (TEAM_QUOTA + 1) (List.replicate 31 0)
        ⟨0, 0, [], 0⟩).payloadSize = byteSizeLong errorSnapshot ∧
    (sendSensorMessage 32 32 (TEAM_QUOTA + 1) (List.replicate 31 0)
        ⟨0, 0, [], 0⟩).window
      = (List.replicate 31 0).set (32 / 32 % (1000 / 32)) (byteSizeLong ⟨0, 0, [], 0⟩) :=
  C6_quota_replacement 32 32 (TEAM_QUOTA + 1) (List.replicate 31 0) ⟨0, 0, [], 0⟩
    (by decide)

/-- C6 counterexample: on a step whose own snapshot is nearly empty
(serialized size 4 in the size model) while the teammates' published
usage already exceeds the quota, the check trips and the replacement
error payload (size 39) is strictly larger than the original payload,
refuting the claim that the replacement's size is strictly smaller. -/
theorem C6_not_smaller_counterexample :
    (sendSensorMessage 32 32 (TEAM_QUOTA + 1) (List.replicate 31 0)
        ⟨0, 0, [], 0⟩).tripped = true ∧
    byteSizeLong (⟨0, 0, [], 0⟩ : Snapshot) = 4 ∧
    (sendSensorMessage 32 32 (TEAM_QUOTA + 1) (List.replicate 31 0)
        ⟨0, 0, [], 0⟩).payloadSize = 39 ∧
    ¬((sendSensorMessage 32 32 (TEAM_QUOTA + 1) (List.replicate 31 0)
        ⟨0, 0, [], 0⟩).payloadSize < byteSizeLong (⟨0, 0, [], 0⟩ : Snapshot)) := by
  refine ⟨by decide, by decide, by decide, by decide⟩

/-- C10: on a quota-tripping step, the byte count published into the
player's window slot is the serialized size of the original, discarded
snapshot — computed before replacement — while the payload actually
sent is the replacement's; whenever the two sizes differ, the published
slot counts bytes that were never transmitted. -/
theorem C10_window_slot_original (bts ct teammateSum : Nat) (w : List Nat)
    (sm : Snapshot)
    (htrip : TEAM_QUOTA < (bandwidth_usage bts ct teammateSum w (byteSizeLong sm)).2)
    (hidx : ct / bts % (1000 / bts) < w.length) :
    (sendSensorMessage bts ct teammateSum w sm).window.getD
        (ct / bts % (1000 / bts)) 0 = byteSizeLong sm ∧
    (sendSensorMessage bts ct teammateSum w sm).payloadSize
      = byteSizeLong errorSnapshot ∧
    (byteSizeLong sm ≠ byteSizeLong errorSnapshot →
      (sendSensorMessage bts ct teammateSum w sm).window.getD
          (ct / bts % (1000 / bts)) 0
        ≠ (sendSensorMessage bts ct teammateSum w sm).payloadSize) := by
  have hw : (sendSensorMessage bts ct teammateSum w sm).window
      = w.set (ct / bts % (1000 / bts)) (byteSizeLong sm) := by
    unfold sendSensorMessage
    rw [if_pos htrip]
    rfl
  have hsz : (sendSensorMessage bts ct teammateSum w sm).payloadSize
      = byteSizeLong errorSnapshot := by
    unfold sendSensorMessage
    rw [if_pos htrip]
  have hslot : (sendSensorMessage bts ct teammateSum w sm).window.getD
      (ct / bts % (1000 / bts)) 0 = byteSizeLong sm := by
    rw [hw]
    exact getD_set_self w _ _ hidx
  refine ⟨hslot, hsz, ?_⟩
  intro hne
  rw [hslot, hsz]
  exact hne

/-- C10 witness: concrete trip where the slot records the original
size 4 while the sent payload has size 39. -/
theorem C10_window_slot_original_witness :
    (sendSensorMessage 32 32 (TEAM_QUOTA + 1) (List.replicate 31 0)
        ⟨0, 0, [], 0⟩).window.getD (32 / 32 % (1000 / 32)) 0
      = byteSizeLong (⟨0, 0, [], 0⟩ : Snapshot) ∧
    (sendSensorMessage 32 32 (TEAM_QUOTA + 1) (List.replicate 31 0)
        ⟨0, 0, [], 0⟩).window.getD (32 / 32 % (1000 / 32)) 0
      ≠ (sendSensorMessage 32 32 (TEAM_QUOTA + 1) (List.replicate 31 0)
        ⟨0, 0, [], 0⟩).payloadSize := by
  have h := C10_window_slot_original 32 32 (TEAM_QUOTA + 1) (List.replicate 31 0)
    ⟨0, 0, [], 0⟩ (by decide) (by decide)
  exact ⟨h.1, h.2.2 (by decide)⟩

/-! Read error policy lemmas. -/

theorem receiveDataN_errno_wouldblock (rest : List NetEvent) (n : Nat) (hn : 0 < n) :
    receiveDataN (NetEvent.errno 11 :: rest) n = (true, [], rest) := by
  obtain ⟨m, rfl⟩ : ∃ m, n = m + 1 := ⟨n - 1, by omega⟩
  simp [receiveDataN, EAGAIN, EWOULDBLOCK]

theorem receiveDataN_errno_other (e : Nat) (rest : List NetEvent) (n : Nat)
    (hn : 0 < n) (he : e ≠ 11) :
    receiveDataN (NetEvent.errno e :: rest) n = (false, [], rest) := by
  obtain ⟨m, rfl⟩ : ∃ m, n = m + 1 := ⟨n - 1, by omega⟩
  simp [receiveDataN, EAGAIN, EWOULDBLOCK, he]

theorem receiveDataN_eof (rest : List NetEvent) (n : Nat) (hn : 0 < n) :
    receiveDataN (NetEvent.chunk [] :: rest) n = (false, [], rest) := by
  obtain ⟨m, rfl⟩ : ∃ m, n = m + 1 := ⟨n - 1, by omega⟩
  simp [receiveDataN]

theorem receiveMessagesN_wouldblock_keeps (c i : Nat) (buf : List Nat) (hic : i < c) :
    (receiveMessagesNRun ⟨true, c, i, buf⟩ [NetEvent.errno 11]).1
      = ⟨true, c, i, buf⟩ := by
  have hc : ¬c = 0 := by omega
  have hine : ¬i = c := by omega
  have hdata := receiveDataN_errno_wouldblock [] (c - i) (by omega)
  simp [receiveMessagesNRun, receiveMessagesN, totalBytes, hdata, hc, hine]

theorem receiveMessagesN_error_keeps_state (e c i : Nat) (buf : List Nat)
    (hic : i < c) (he : e ≠ 11) :
    (receiveMessagesNRun ⟨true, c, i, buf⟩ [NetEvent.errno e]).1
      = ⟨false, c, i, buf⟩ := by
  have hc : ¬c = 0 := by omega
  have hine : ¬i = c := by omega
  have hdata := receiveDataN_errno_other e [] (c - i) (by omega) he
  simp [receiveMessagesNRun, receiveMessagesN, totalBytes, hdata, hc, hine]

/-- C8 (amended): the receive error policy — a would-block errno
(EAGAIN = EWOULDBLOCK = 11 on Linux) leaves the Session open and merely
ends the poll; any other recv error and an orderly zero-length read
close the Session; but the in-flight partial-message state
(content_size, recv_index, buffered bytes) is retained, not cleared
(see the counterexample for a later connection continuing it). -/
theorem C8_read_error_policy (e n c i : Nat) (rest : List NetEvent) (buf : List Nat)
    (hn : 0 < n) (he : e ≠ 11) (hic : i < c) :
    receiveDataN (NetEvent.errno 11 :: rest) n = (true, [], rest) ∧
    receiveDataN (NetEvent.errno e :: rest) n = (false, [], rest) ∧
    receiveDataN (NetEvent.chunk [] :: rest) n = (false, [], rest) ∧
    (receiveMessagesNRun ⟨true, c, i, buf⟩ [NetEvent.errno 11]).1
      = ⟨true, c, i, buf⟩ ∧
    (receiveMessagesNRun ⟨true, c, i, buf⟩ [NetEvent.errno e]).1
      = ⟨false, c, i, buf⟩ :=
  ⟨receiveDataN_errno_wouldblock rest n hn,
   receiveDataN_errno_other e rest n hn he,
   receiveDataN_eof rest n hn,
   receiveMessagesN_wouldblock_keeps c i buf hic,
   receiveMessagesN_error_keeps_state e c i buf hic he⟩

/-- C8 witness: concrete instance — errno 5 mid-message closes the
session and retains content_size = 5, recv_index = 2. -/
theorem C8_read_error_policy_witness :
    (receiveMessagesNRun ⟨true, 5, 2, [1, 2]⟩ [NetEvent.errno 11]).1
      = ⟨true, 5, 2, [1, 2]⟩ ∧
    (receiveMessagesNRun ⟨true, 5, 2, [1, 2]⟩ [NetEvent.errno 5]).1
      = ⟨false, 5, 2, [1, 2]⟩ :=
  ⟨(C8_read_error_policy 5 4 5 2 [] [1, 2] (by decide) (by decide) (by decide)).2.2.2.1,
   (C8_read_error_policy 5 4 5 2 [] [1, 2] (by decide) (by decide) (by decide)).2.2.2.2⟩

/-- C8 counterexample: a recv error (errno 5) while 2 of 5 payload
bytes are in flight closes the Session but leaves content_size = 5 and
recv_index = 2 in place; after a reconnect (which resets neither
field), the first 3 bytes of the new connection complete the dead
session's partial message — the claim that closing clears the in-flight
state is false. -/
theorem C8_inflight_state_counterexample :
    (receiveMessagesNRun ⟨true, 0, 0, []⟩
        [NetEvent.chunk [0, 0, 0, 5], NetEvent.chunk [1, 2], NetEvent.errno 5]).1
      = ⟨false, 5, 2, [1, 2]⟩ ∧
    (receiveMessagesNRun ⟨true, 5, 2, [1, 2]⟩ [NetEvent.chunk [9, 9, 9]]).2
      = [[1, 2, 9, 9, 9]] := by
  refine ⟨by decide, by decide⟩

/-! Send loop lemmas. -/

theorem send_all_covers_iff : ∀ (script : List Int) (l : Nat),
    send_all l script = true ↔
      ∃ k, k ≤ script.length ∧ (∀ i ∈ script.take k, 1 ≤ i) ∧
        l ≤ ((script.take k).map Int.toNat).sum := by
  intro script
  induction script with
  | nil =>
    intro l
    cases l with
    | zero =>
      simp only [send_all]
      constructor
      · intro _; exact ⟨0, by simp⟩
      · intro _; trivial
    | succ m =>
      simp only [send_all]
      constructor
      · intro h; cases h
      · rintro ⟨k, hk, _, hsum⟩
        simp at hk
        subst hk
        simp at hsum
  | cons a s ihs =>
    intro l
    cases l with
    | zero =>
      simp only [send_all]
      constructor
      · intro _; exact ⟨0, by simp⟩
      · intro _; trivial
    | succ m =>
      simp only [send_all]
      by_cases ha : a < 1
      · rw [if_pos ha]
        constructor
        · intro h; cases h
        · rintro ⟨k, hk, hpos, hsum⟩
          cases k with
          | zero => simp at hsum
          | succ k2 =>
            have h1 := hpos a (by simp)
            omega
      · rw [if_neg ha]
        rw [ihs (m + 1 - a.toNat)]
        constructor
        · rintro ⟨k, hk, hpos, hsum⟩
          refine ⟨k + 1, by simpa using hk, ?_, ?_⟩
          · intro i hi
            rcases List.mem_cons.mp (by simpa using hi) with h | h
            · omega
            · exact hpos i h
          · rw [List.take_succ_cons]
            simp only [List.map_cons, List.sum_cons]
            omega
        · rintro ⟨k, hk, hpos, hsum⟩
          cases k with
          | zero => simp at hsum
          | succ k2 =>
            refine ⟨k2, by simpa using hk, ?_, ?_⟩
            · intro i hi
              exact hpos i (by simp [hi])
            · rw [List.take_succ_cons] at hsum
              simp only [List.map_cons, List.sum_cons] at hsum
              omega

/-- C9 (amended): the outbound send loops over the write primitive
until every byte of the length-prefixed snapshot is written — send_all
succeeds exactly when an all-successful prefix of writes covers the
framed length — and a failed write makes it report failure; but
`sendSensorMessage` discards that result and the Session is left open
(the connection is not considered dead by the send path). -/
theorem C9_send_loop_session (clientOpen : Bool) (payloadSize : Nat)
    (script : List Int) :
    (sendSensorMessageNet clientOpen payloadSize script).2 = clientOpen ∧
    ((sendSensorMessageNet clientOpen payloadSize script).1 = true ↔
      sendAllSpec (4 + payloadSize) script) :=
  ⟨rfl, send_all_covers_iff script (4 + payloadSize)⟩

/-- C9 counterexample: a failing write (send returns -1) makes send_all
report failure, yet the session flag after `sendSensorMessage` is still
open — the Session is not considered dead on a failed send. -/
theorem C9_failed_send_counterexample :
    (sendSensorMessageNet true 5 [-1]).1 = false ∧
    (sendSensorMessageNet true 5 [-1]).2 = true := by
  refine ⟨by decide, by decide⟩

end Player
